import Mathlib

/-!
Verification development for the `action-terminal` PTY execution service.

The definitions below are a shallow embedding of the Python sources under
`action/app/` (`terminal.py`, `pty_reader.py`, `topic_manager.py`,
`action_server.py`).  Bytes are modelled as `List Nat` (values < 256), text as
`List Char`, fallible Python code as `Except PyError`, and OS effects
(select/read/kill/waitpid results) as explicit oracle parameters.
-/

deriving instance DecidableEq for Except

/-- Python-level exceptions that the embedded code can raise. -/
inductive PyError
  | osError (msg : String)
  | nameError (name : String)
  deriving Repr, DecidableEq

/-- Model of `TerminalOutput` (terminal_types.py): `is_done`, `output`,
`error`, `stop_mark_found` (default `false`). Output bytes are `List Nat`. -/
structure TerminalOutput where
  is_done : Bool
  output : Option (List Nat)
  error : Option String
  stop_mark_found : Bool := false
  deriving Repr, DecidableEq

/-- Result of one `os.read` call on a non-blocking fd, as an oracle:
either some bytes, an `EAGAIN` failure, or another `OSError`. -/
inductive ReadResult
  | ok (b : List Nat)
  | eagain
  | err (msg : String)
  deriving Repr, DecidableEq

/-- Embedding of `Terminal.read_output` (terminal.py lines 83-93): reads the
master fd; `EAGAIN` is caught and yields `None`; other `OSError`s re-raise. -/
def read_output : ReadResult → Except PyError (Option (List Nat))
  | .ok b => .ok (some b)
  | .eagain => .ok none
  | .err m => .error (.osError m)

/-- Which fds `select` reported readable in `poll_read_fds`; `select` with no
timeout returns only when at least one fd is ready. -/
structure SelectReady where
  sentinel : Bool
  master : Bool
  deriving Repr, DecidableEq

/-- Embedding of `Terminal.read_blocking` (terminal.py lines 95-119).  After
`poll_read_fds`, the sentinel fd is drained when ready (setting `is_done`),
and the master fd is read with a bare `os.read` — there is no `try/except`
around it, so an `EAGAIN` (or any `OSError`) from that read propagates. -/
def read_blocking (ready : SelectReady) (masterRead : ReadResult) :
    Except PyError TerminalOutput :=
  let is_done := ready.sentinel
  if ready.master then
    match masterRead with
    | .ok b => .ok { is_done := is_done, output := some b, error := none }
    | .eagain => .error (.osError "EAGAIN")
    | .err m => .error (.osError m)
  else
    .ok { is_done := is_done, output := none, error := none }

/-! UTF-8 codec.  `Terminal.read` decodes bytes with `errors="ignore"` and the
server's `_coerce_bytes_to_text` also decodes with `errors="ignore"`; the
spec claims "replace".  We embed both strategies of Python's UTF-8 decoder:
on an ill-formed sequence the maximal valid subpart (at least one byte) is
consumed, and the strategy either drops it (`ignore`) or emits U+FFFD
(`replace`). -/

/-- Continuation byte test (0x80..0xBF). -/
def isContByte (b : Nat) : Bool := decide (0x80 ≤ b) && decide (b < 0xC0)

/-- Accumulate `need` continuation bytes into code point `cp`; returns the
decoded scalar (or `none` on failure) and the number of bytes consumed so
far (`seen`), which on failure is the length of the maximal valid subpart. -/
def utf8Tail : Nat → Nat → Nat → List Nat → Option Nat × Nat
  | cp, 0, seen, _ => (some cp, seen)
  | _, _ + 1, seen, [] => (none, seen)
  | cp, need + 1, seen, b :: rest =>
    if isContByte b then utf8Tail (cp * 0x40 + (b - 0x80)) need (seen + 1) rest
    else (none, seen)

/-- Decode one UTF-8 sequence starting at byte `b` with remaining bytes
`rest`: returns the scalar value (or `none`) and bytes consumed (≥ 1). -/
def utf8Step (b : Nat) (rest : List Nat) : Option Nat × Nat :=
  if b < 0x80 then (some b, 1)
  else if b < 0xC2 then (none, 1)
  else if b ≤ 0xDF then utf8Tail (b - 0xC0) 1 1 rest
  else if b ≤ 0xEF then
    -- 3-byte sequences: the first continuation byte has a restricted range
    -- (E0: A0..BF excludes overlongs; ED: 80..9F excludes surrogates).
    match rest with
    | [] => (none, 1)
    | c1 :: r1 =>
      let firstOk :=
        if b = 0xE0 then decide (0xA0 ≤ c1) && decide (c1 < 0xC0)
        else if b = 0xED then decide (0x80 ≤ c1) && decide (c1 < 0xA0)
        else isContByte c1
      if firstOk then utf8Tail ((b - 0xE0) * 0x40 + (c1 - 0x80)) 1 2 r1
      else (none, 1)
  else if b ≤ 0xF4 then
    -- 4-byte sequences: F0: 90..BF excludes overlongs; F4: 80..8F caps at
    -- U+10FFFF.
    match rest with
    | [] => (none, 1)
    | c1 :: r1 =>
      let firstOk :=
        if b = 0xF0 then decide (0x90 ≤ c1) && decide (c1 < 0xC0)
        else if b = 0xF4 then decide (0x80 ≤ c1) && decide (c1 < 0x90)
        else isContByte c1
      if firstOk then utf8Tail ((b - 0xF0) * 0x40 + (c1 - 0x80)) 2 2 r1
      else (none, 1)
  else (none, 1)

/-- Fueled UTF-8 decode loop; each step consumes at least one byte, so fuel
equal to the byte count suffices.  `replace = true` emits U+FFFD for each
ill-formed maximal subpart, `replace = false` drops it (Python "ignore"). -/
def utf8DecodeGo (replace : Bool) : Nat → List Nat → List Char
  | 0, _ => []
  | _ + 1, [] => []
  | fuel + 1, b :: rest =>
    match utf8Step b rest with
    | (some cp, n) => Char.ofNat cp :: utf8DecodeGo replace fuel ((b :: rest).drop n)
    | (none, n) =>
      (if replace then [Char.ofNat 0xFFFD] else []) ++
        utf8DecodeGo replace fuel ((b :: rest).drop n)

/-- Python `bytes.decode("utf-8", errors="ignore")`. -/
def utf8DecodeIgnore (l : List Nat) : List Char := utf8DecodeGo false l.length l

/-- Python `bytes.decode("utf-8", errors="replace")` (the strategy the spec
claims the server uses). -/
def utf8DecodeReplace (l : List Nat) : List Char := utf8DecodeGo true l.length l

/-- UTF-8 encoding of one scalar value (Python `str.encode("utf-8")`). -/
def utf8EncodeChar (c : Char) : List Nat :=
  let n := c.toNat
  if n < 0x80 then [n]
  else if n < 0x800 then [0xC0 + n / 0x40, 0x80 + n % 0x40]
  else if n < 0x10000 then
    [0xE0 + n / 0x1000, 0x80 + n / 0x40 % 0x40, 0x80 + n % 0x40]
  else
    [0xF0 + n / 0x40000, 0x80 + n / 0x1000 % 0x40, 0x80 + n / 0x40 % 0x40,
      0x80 + n % 0x40]

/-- Python `str.encode("utf-8")` on a whole string. -/
def utf8Encode (l : List Char) : List Nat := (l.map utf8EncodeChar).flatten

/-! Sanitization helpers used by `Terminal.read` (terminal.py lines 122-181). -/

/-- Model of `text.replace("\r\n", "\n").replace("\r", "\n")`.  The two
sequential Python passes are equivalent to this single left-to-right scan:
the first pass rewrites every `"\r\n"`, leaving only lone `'\r'`s, which the
second pass rewrites to `'\n'`. -/
def pyCrlfToLf : List Char → List Char
  | [] => []
  | '\r' :: '\n' :: rest => '\n' :: pyCrlfToLf rest
  | '\r' :: rest => '\n' :: pyCrlfToLf rest
  | c :: rest => c :: pyCrlfToLf rest

/-- CSI parameter byte (regex class `[0-?]`, i.e. 0x30..0x3F). -/
def isCsiParam (c : Char) : Bool := decide (0x30 ≤ c.toNat) && decide (c.toNat ≤ 0x3F)

/-- CSI intermediate byte (regex class from space to slash, 0x20..0x2F). -/
def isCsiInter (c : Char) : Bool := decide (0x20 ≤ c.toNat) && decide (c.toNat ≤ 0x2F)

/-- CSI final byte (regex class `[@-~]`, i.e. 0x40..0x7E). -/
def isCsiFinal (c : Char) : Bool := decide (0x40 ≤ c.toNat) && decide (c.toNat ≤ 0x7E)

/-- Length of a match of the ANSI CSI regex (ESC, an opening bracket, any
number of parameter bytes, any number of intermediate bytes, one final byte)
at the head of the list, or `none` if the regex does not match there. -/
def ansiMatchLen (l : List Char) : Option Nat :=
  match l with
  | '\x1b' :: '[' :: r =>
    let ps := r.takeWhile isCsiParam
    let r2 := r.drop ps.length
    let ins := r2.takeWhile isCsiInter
    let r3 := r2.drop ins.length
    match r3 with
    | c :: _ => if isCsiFinal c then some (2 + ps.length + ins.length + 1) else none
    | [] => none
  | _ => none

/-- Fueled scan implementing the ANSI-escape `re.sub` of `Terminal.read`:
leftmost non-overlapping matches are removed, other characters are kept.
Every step consumes at least one character, so fuel = length suffices. -/
def ansiStripGo : Nat → List Char → List Char
  | 0, l => l
  | _ + 1, [] => []
  | fuel + 1, c :: rest =>
    match ansiMatchLen (c :: rest) with
    | some n => ansiStripGo fuel ((c :: rest).drop n)
    | none => c :: ansiStripGo fuel rest

/-- ANSI escape stripping as performed by `Terminal.read`. -/
def ansiStrip (l : List Char) : List Char := ansiStripGo l.length l

/-- Remove one or more repetitions of `cmd>` each followed by an optional
space: the `(?:cmd> ?)+` part of the prompt-stripping regex, applied at a
line start. -/
def dropPromptRun : List Char → List Char
  | 'c' :: 'm' :: 'd' :: '>' :: ' ' :: rest => dropPromptRun rest
  | 'c' :: 'm' :: 'd' :: '>' :: rest => dropPromptRun rest
  | l => l

/-- Model of `re.sub(r"(?m)^(?:cmd> ?)+", "", text)`: in multiline mode `^`
matches at the start of the string and after every `'\n'`, which is exactly
the start of every `splitOn '\n'` segment. -/
def promptStrip (l : List Char) : List Char :=
  List.intercalate ['\n'] ((l.splitOn '\n').map dropPromptRun)

/-- Python substring containment `pat in text` (true for the empty pattern). -/
def isSubstring (pat l : List Char) : Bool :=
  (List.range (l.length + 1)).any fun i => pat.isPrefixOf (l.drop i)

/-- Test `text.startswith("^C")`. -/
def startsWithCaretC : List Char → Bool
  | '^' :: 'C' :: _ => true
  | _ => false

/-- The ctrl-C echo fix of `Terminal.read`: when a ctrl-C byte was sent on
this terminal within the last 1.5 seconds (abstracted to the boolean
`recent`) and the sanitized text does not start with `"^C"`, prefix
`"^C\n"`. -/
def ctrlCFix (recent : Bool) (l : List Char) : List Char :=
  if recent && !startsWithCaretC l then '^' :: 'C' :: '\n' :: l else l

/-- Outcome of one iteration of the drain loop in the no-stop-mark branch of
`Terminal.read` (terminal.py lines 150-163), as an oracle: the 0.05-second
`select` timed out (`break`); `os.read` returned bytes (`b""` means EOF and
breaks, anything else is appended and the loop continues); `os.read` raised
`EAGAIN` (`break`); or `os.read` raised another `OSError`, which the inner
handler re-raises. -/
inductive DrainEvent
  | notReady
  | chunk (b : List Nat)
  | eagain
  | err (msg : String)
  deriving Repr, DecidableEq

/-- The drain loop `for _ in range(4)` over its oracle events: returns the
chunks appended before the loop ended and, when a non-EAGAIN `OSError`
escaped an `os.read`, the error it carries (an exhausted oracle means the
master fd had nothing more to offer, like `notReady`). -/
def drainLoop : Nat → List DrainEvent → List (List Nat) × Option String
  | 0, _ => ([], none)
  | _ + 1, [] => ([], none)
  | n + 1, ev :: rest =>
    match ev with
    | .notReady => ([], none)
    | .eagain => ([], none)
    | .chunk [] => ([], none)
    | .chunk b =>
      let (more, e) := drainLoop n rest
      (b :: more, e)
    | .err m => ([], some m)

/-- Inputs of one `Terminal.read` call that come from the environment:
what `select` reported, what the master read returned, the oracle for the
drain loop the no-stop-mark branch runs (at most 4 reads with 0.05-second
timeouts), and whether a ctrl-C was sent within the last 1.5 seconds. -/
structure ReadCtx where
  ready : SelectReady
  masterRead : ReadResult
  drainEvents : List DrainEvent
  ctrlCRecent : Bool

/-- Embedding of `Terminal.read` (terminal.py lines 122-181).  It first runs
`read_blocking`; then, when output is present and a stop mark is given, it
checks the stop mark against the raw decoded text (comment in source:
"Detect stop mark in raw text (with CRLF)") and then sanitizes the output
(ANSI strip, then CRLF→LF, then prompt strip); when output is present and
no stop mark is given, it drains extra chunks and — unless a non-EAGAIN
`OSError` from a drain read escapes to the branch's outer
`except Exception: pass`, in which case the raw first read is returned
unchanged — joins the chunks, sanitizes (CRLF→LF, then ANSI strip, then
prompt strip) and applies the ctrl-C echo fix. -/
def terminalRead (ctx : ReadCtx) (stopMark : Option (List Char)) :
    Except PyError TerminalOutput := do
  let r ← read_blocking ctx.ready ctx.masterRead
  match r.output, stopMark with
  | some out, some sm =>
    let text := utf8DecodeIgnore out
    let found := isSubstring sm text
    let sanitized := promptStrip (pyCrlfToLf (ansiStrip text))
    pure { r with stop_mark_found := found, output := some (utf8Encode sanitized) }
  | some out, none =>
    match drainLoop 4 ctx.drainEvents with
    | (_, some _) => pure r
    | (extra, none) =>
      let text := utf8DecodeIgnore ((out :: extra).flatten)
      let norm := promptStrip (ansiStrip (pyCrlfToLf text))
      let norm := ctrlCFix ctx.ctrlCRecent norm
      pure { r with output := some (utf8Encode norm) }
  | none, _ => pure r

/-- Test whether raw output bytes start with `"^C"` (0x5E 0x43). -/
def startsWithCaretCBytes : List Nat → Bool
  | 0x5E :: 0x43 :: _ => true
  | _ => false

/-- Output bytes of a no-stop-mark read cycle as claim C2 states them: the
raw bytes unchanged, except that `"^C\n"` is prefixed when a ctrl-C was sent
within the last 1.5 seconds and the output does not already begin with
`"^C"`. -/
def c2ClaimedOutput (ctrlCRecent : Bool) (raw : List Nat) : List Nat :=
  if ctrlCRecent && !startsWithCaretCBytes raw then 0x5E :: 0x43 :: 0x0A :: raw
  else raw

/-- The sanitization `Terminal.read` applies in the no-stop-mark branch, as a
transform on the joined raw bytes: decode (errors ignored), CRLF→LF, ANSI
escape strip, leading-prompt removal, ctrl-C echo fix, re-encode. -/
def sanitizeNoStop (recent : Bool) (raw : List Nat) : List Nat :=
  utf8Encode (ctrlCFix recent (promptStrip (ansiStrip (pyCrlfToLf (utf8DecodeIgnore raw)))))

/-- The sanitization `Terminal.read` applies in the stop-mark branch (ANSI
escape strip, then CRLF→LF, then leading-prompt removal), on decoded text.
Claim C3 asserts the stop mark is matched against this sanitized text. -/
def sanitizeStopText (text : List Char) : List Char :=
  promptStrip (pyCrlfToLf (ansiStrip text))

/-! Embedding of `Terminal.close` (terminal.py lines 218-269).  The OS-side
life of the shell's process group is modelled by `ShellStatus`; whether the
SIGTERM causes the group to die within the 2-second `waitpid` polling window
is an oracle boolean. -/

/-- Status of the shell child / its process group: running, exited but not
reaped (zombie, the group still exists for `waitpid`), or fully gone (no
process in the group: `killpg` raises `ProcessLookupError`, `waitpid` raises
`ChildProcessError`). -/
inductive ShellStatus
  | alive
  | zombie
  | gone
  deriving Repr, DecidableEq

/-- Observable state of a `Terminal`: whether the parent's master and
sentinel-read fds are open, and the shell status. -/
structure TermState where
  masterOpen : Bool
  sentinelOpen : Bool
  status : ShellStatus
  deriving Repr, DecidableEq

/-- Effect of `os.killpg(pid, sig)` in `close`: `none` models
`ProcessLookupError` (the group no longer exists); for SIGTERM the oracle
`fatalWithinWindow` says whether the shell exits inside the 2-second window. -/
def killpgStep (st : ShellStatus) (fatalWithinWindow : Bool) : Option ShellStatus :=
  match st with
  | .gone => none
  | .zombie => some .zombie
  | .alive => if fatalWithinWindow then some .zombie else some .alive

/-- Effect of reaping via `os.waitpid(pid, WNOHANG)` loops: a zombie is
reaped and the group disappears; otherwise nothing changes. -/
def waitpidReap : ShellStatus → ShellStatus
  | .zombie => .gone
  | s => s

/-- Embedding of `Terminal.close`: close the master and sentinel fds with
errors suppressed; SIGTERM the process group, returning at once on
`ProcessLookupError`; poll `waitpid(WNOHANG)` up to 2 seconds (reaping if
the shell exited); on timeout SIGKILL (which always kills the group) and
reap the remaining zombie.  All failure paths are caught in the source, so
the embedding is a total function — `close` never raises. -/
def closeTerminal (termKills : Bool) (s : TermState) : TermState :=
  let s1 : TermState := { s with masterOpen := false, sentinelOpen := false }
  match killpgStep s1.status termKills with
  | none => s1
  | some .zombie => { s1 with status := waitpidReap .zombie }
  | some .alive => { s1 with status := waitpidReap .zombie }
  | some .gone => { s1 with status := .gone }

/-! Embedding of `read_pty_into_queue` (pty_reader.py lines 31-42).  Its
`finally` clause runs `loop.call_soon_threadsafe(q.put_nowait, None)`; the
name `q` must be resolved in the enclosing scopes before the call can be
made, so we embed the module's and the function's bound names and the
lookup. -/

/-- Names bound at module level in pty_reader.py: the imports (`asyncio`,
`errno`, `logging`, `queue`, `threading`, `Generator`, `Tuple`, `Terminal`,
`TerminalOutput`), the module logger, and the three module definitions. -/
def ptyReaderModuleNames : List String :=
  ["asyncio", "errno", "logging", "queue", "threading", "Generator", "Tuple",
   "Terminal", "TerminalOutput", "logger", "read_pty", "read_pty_into_queue",
   "PtyReader"]

/-- Names bound in the scope of `read_pty_into_queue` itself: its three
parameters and the loop variable of the `for` statement. -/
def readPtyIntoQueueLocalNames : List String :=
  ["terminal", "output_queue", "loop", "item"]

/-- Result of one run of `read_pty_into_queue`: the values handed to
`loop.call_soon_threadsafe` for the queue (`some out` for a TerminalOutput,
`none` for the None completion sentinel), and how the call ended. -/
structure ReadPtyQueueRun where
  posted : List (Option TerminalOutput)
  outcome : Except PyError Unit
  deriving Repr, DecidableEq

/-- Embedding of `read_pty_into_queue`, parameterized by the stream of
`TerminalOutput` items its `read_pty` generator yields.  The body posts each
item; the `finally` clause then evaluates `q.put_nowait` — if `q` resolves
in scope the sentinel `None` is posted, otherwise a `NameError` is raised
and no sentinel is posted. -/
def read_pty_into_queue (items : List TerminalOutput) : ReadPtyQueueRun :=
  let posted := items.map some
  if (readPtyIntoQueueLocalNames ++ ptyReaderModuleNames).contains "q" then
    { posted := posted ++ [none], outcome := .ok () }
  else
    { posted := posted, outcome := .error (.nameError "q") }

/-! Embedding of topic_manager.py. -/

/-- Model of `asyncio.Queue`: `maxsize = 0` (the default used by
`TopicSubscriber.__init__`) means unbounded; `await put` appends (it blocks
when the queue is full, it never drops). -/
structure AsyncQueue (α : Type) where
  maxsize : Nat
  items : List α
  deriving Repr, DecidableEq

/-- Whether an `asyncio.Queue` is full (`0 < maxsize ≤ length`). -/
def AsyncQueue.full (q : AsyncQueue α) : Bool :=
  decide (0 < q.maxsize) && decide (q.maxsize ≤ q.items.length)

/-- Model of `await queue.put(m)` (never reached full in this program, since
every queue is created with `maxsize = 0`). -/
def AsyncQueue.put (q : AsyncQueue α) (m : α) : AsyncQueue α :=
  { q with items := q.items ++ [m] }

/-- Model of `TopicSubscriber`: a message queue and a closed flag.
`TopicSubscriber.__init__` creates `asyncio.Queue()` with the default
`maxsize = 0`, i.e. an unbounded queue. -/
structure TopicSubscriber (α : Type) where
  queue : AsyncQueue α
  closed : Bool
  deriving Repr, DecidableEq

/-- `TopicSubscriber()` as built by `TopicManager.add_subscription`. -/
def TopicSubscriber.new : TopicSubscriber α := ⟨⟨0, []⟩, false⟩

/-- Embedding of `TopicSubscriber.publish`: a message to a closed subscriber
is dropped; otherwise it is put on the subscriber's queue. -/
def TopicSubscriber.publish (s : TopicSubscriber α) (m : α) : TopicSubscriber α :=
  if s.closed then s else { s with queue := s.queue.put m }

/-- Publishing a whole list of messages to one subscriber, in order. -/
def TopicSubscriber.publishList (s : TopicSubscriber α) (ms : List α) :
    TopicSubscriber α :=
  ms.foldl TopicSubscriber.publish s

/-- Claim C5's boundedness property for a subscriber: some bound `B` limits
the queue length however many messages are published to it. -/
def TopicSubscriber.boundedQueue (s : TopicSubscriber α) : Prop :=
  ∃ B : Nat, ∀ ms : List α, (s.publishList ms).queue.items.length ≤ B

/-- Association-list lookup keyed by subscriber identity. -/
def assocLookup (k : Nat) : List (Nat × β) → Option β
  | [] => none
  | (k', v) :: rest => if k' = k then some v else assocLookup k rest

/-- Model of `TopicManager` state: subscriber objects addressed by identity,
and each topic's set of subscriber identities. -/
structure TopicManagerState (α : Type) where
  subs : List (Nat × TopicSubscriber α)
  topics : List (String × List Nat)

/-- Subscriber identities registered on a topic (`_topic_subscribers.get`). -/
def TopicManagerState.subsOf (tm : TopicManagerState α) (topic : String) : List Nat :=
  (tm.topics.lookup topic).getD []

/-- One step of the publish fanout: a subscriber whose identity is in the
snapshot gets `subscriber.publish(message)` applied; any other subscriber is
untouched. -/
def publishTo (ids : List Nat) (m : α) (p : Nat × TopicSubscriber α) :
    Nat × TopicSubscriber α :=
  if p.1 ∈ ids then (p.1, p.2.publish m) else p

/-- Embedding of `TopicManager.publish`: snapshot the topic's subscriber set
under the lock, then fan out `subscriber.publish(message)` to each of them
(via `asyncio.gather` with `return_exceptions=True`, so one subscriber's
failure does not affect the others); subscribers not on the topic are
untouched. -/
def TopicManagerState.publish (tm : TopicManagerState α) (topic : String) (m : α) :
    TopicManagerState α :=
  { tm with subs := tm.subs.map (publishTo (tm.subsOf topic) m) }

/-! Embedding of `_coerce_bytes_to_text` (action_server.py lines 57-67) over
a model of the JSON-ish payload values `model_dump` produces. -/

/-- Payload values: strings, raw byte strings, numbers, booleans, null,
arrays, and string-keyed objects. -/
inductive JValue
  | jstr (s : List Char)
  | jbytes (b : List Nat)
  | jnum (n : Int)
  | jbool (b : Bool)
  | jnull
  | jarr (xs : List JValue)
  | jobj (fields : List (String × JValue))

mutual

/-- Embedding of `_coerce_bytes_to_text`: bytes are decoded with
`errors="ignore"`, lists and dicts are mapped recursively, everything else
is returned unchanged. -/
def coerceBytesToText : JValue → JValue
  | .jbytes b => .jstr (utf8DecodeIgnore b)
  | .jarr xs => .jarr (coerceBytesToTextList xs)
  | .jobj fs => .jobj (coerceBytesToTextFields fs)
  | .jstr s => .jstr s
  | .jnum n => .jnum n
  | .jbool b => .jbool b
  | .jnull => .jnull

/-- `_coerce_bytes_to_text` mapped over a list value. -/
def coerceBytesToTextList : List JValue → List JValue
  | [] => []
  | x :: xs => coerceBytesToText x :: coerceBytesToTextList xs

/-- `_coerce_bytes_to_text` mapped over a dict value's entries. -/
def coerceBytesToTextFields : List (String × JValue) → List (String × JValue)
  | [] => []
  | (k, v) :: fs => (k, coerceBytesToText v) :: coerceBytesToTextFields fs

end

mutual

/-- A payload value is JSON-encodable iff no raw byte string remains in it. -/
def bytesFree : JValue → Bool
  | .jbytes _ => false
  | .jarr xs => bytesFreeList xs
  | .jobj fs => bytesFreeFields fs
  | .jstr _ => true
  | .jnum _ => true
  | .jbool _ => true
  | .jnull => true

/-- `bytesFree` over a list value. -/
def bytesFreeList : List JValue → Bool
  | [] => true
  | x :: xs => bytesFree x && bytesFreeList xs

/-- `bytesFree` over a dict value's entries. -/
def bytesFreeFields : List (String × JValue) → Bool
  | [] => true
  | (_, v) :: fs => bytesFree v && bytesFreeFields fs

end

/-! Embedding of the `ActionServer` session tables (action_server.py).  The
server keeps `session → [WebSocket]`, `session → [ExecutionReference]`,
`session → set<topic>` and the reverse `execution → session`; all four are
only mutated on the event loop, so we model them as a sequentially-stepped
state.  Python dicts are modelled as functions to `Option` (`none` = key
absent); WebSockets are identified by numbers, sessions / executions /
topics by strings. -/

structure ServerState where
  websockets : String → Option (List Nat)
  executions : String → Option (List String)
  topics : String → Option (List String)
  execSession : String → Option String

/-- The server's initial empty tables. -/
def ServerState.empty : ServerState :=
  ⟨fun _ => none, fun _ => none, fun _ => none, fun _ => none⟩

/-- Event-loop operations that mutate the session tables, as performed by
the route handlers of action_server.py. -/
inductive SOp
  | execute (sid eid : String)
  | deleteSession (sid : String)
  | addTopic (sid tid : String)
  | removeTopic (sid tid : String)
  | wsConnect (sid : String) (w : Nat)
  | wsClose (sid : String) (w : Nat)
  deriving Repr, DecidableEq

/-- Does the operation register execution id `eid` (the only way an entry
can reappear in the reverse `execution → session` table)? -/
def SOp.registersExec (op : SOp) (eid : String) : Bool :=
  match op with
  | .execute _ eid' => eid' == eid
  | _ => false

/-- One table mutation, following the route handlers: `execute` appends the
new reference to the session's execution list and records the reverse
mapping; `delete_session` pops the session from all three tables and deletes
every reverse entry whose value is that session; `add_topic` adds to the
session's topic set; `remove_topic` discards and reclaims an empty set;
the websocket handshake appends the socket; `_remove_websocket` removes it
by identity and reclaims an empty list. -/
def ServerState.step (st : ServerState) (op : SOp) : ServerState :=
  match op with
  | .execute sid eid =>
    { st with
      executions := fun k =>
        if k = sid then some ((st.executions sid).getD [] ++ [eid])
        else st.executions k,
      execSession := fun e => if e = eid then some sid else st.execSession e }
  | .deleteSession sid =>
    { st with
      websockets := fun k => if k = sid then none else st.websockets k,
      executions := fun k => if k = sid then none else st.executions k,
      topics := fun k => if k = sid then none else st.topics k,
      execSession := fun e =>
        if st.execSession e = some sid then none else st.execSession e }
  | .addTopic sid tid =>
    { st with
      topics := fun k =>
        if k = sid then
          let cur := (st.topics sid).getD []
          some (if tid ∈ cur then cur else cur ++ [tid])
        else st.topics k }
  | .removeTopic sid tid =>
    { st with
      topics := fun k =>
        if k = sid then
          match st.topics sid with
          | none => none
          | some cur =>
            let cur' := cur.filter (· ≠ tid)
            if cur' = [] then none else some cur'
        else st.topics k }
  | .wsConnect sid w =>
    { st with
      websockets := fun k =>
        if k = sid then some ((st.websockets sid).getD [] ++ [w])
        else st.websockets k }
  | .wsClose sid w =>
    { st with
      websockets := fun k =>
        if k = sid then
          match st.websockets sid with
          | none => none
          | some cur =>
            let cur' := cur.filter (· ≠ w)
            if cur' = [] then none else some cur'
        else st.websockets k }

/-- Folding a list of operations over the state. -/
def ServerState.run (st : ServerState) (ops : List SOp) : ServerState :=
  ops.foldl ServerState.step st

/-- What one observer callback delivered: the WebSockets the payload was
sent to and the topics it was published to. -/
structure FanoutResult where
  delivered : List Nat
  published : List String
  deriving Repr, DecidableEq

/-- Embedding of `ActionServerExecutionObserver.receive_execution_response`
(action_server.py lines 37-102): look up the session of the response's
execution id; when there is none, drop the response entirely; otherwise send
the payload to every WebSocket of the session (keeping only the sockets
whose send succeeded, per the `sendOk` oracle) and publish the payload to
every topic registered for the session. -/
def receiveExecutionResponse (st : ServerState) (eid : String)
    (sendOk : Nat → Bool) : FanoutResult × ServerState :=
  match st.execSession eid with
  | none => (⟨[], []⟩, st)
  | some sid =>
    let wss := (st.websockets sid).getD []
    let active := wss.filter sendOk
    let topicsList := (st.topics sid).getD []
    (⟨wss, topicsList⟩,
     { st with websockets := fun k => if k = sid then some active else st.websockets k })

/-! Embedding of `ActionServer.sessions` (action_server.py lines 269-307). -/

/-- ASCII whitespace as stripped by Python `int()` before parsing. -/
def isPySpace (c : Char) : Bool :=
  c = ' ' || c = '\t' || c = '\n' || c = '\x0d' || c = '\x0b' || c = '\x0c'

/-- Strip leading and trailing whitespace. -/
def pyStripWs (cs : List Char) : List Char :=
  ((cs.dropWhile isPySpace).reverse.dropWhile isPySpace).reverse

/-- Digits-only parse of a nonempty decimal string. -/
def digitsToNat (cs : List Char) : Option Nat :=
  if cs ≠ [] ∧ cs.all Char.isDigit then
    some (cs.foldl (fun acc c => acc * 10 + (c.toNat - 48)) 0)
  else none

/-- Model of Python `int(s)` on query strings: optional surrounding
whitespace, an optional sign, then decimal digits; anything else raises
`ValueError` (`none`). -/
def pyParseInt (s : String) : Option Int :=
  match pyStripWs s.data with
  | '-' :: rest => (digitsToNat rest).map fun n => -(n : Int)
  | '+' :: rest => (digitsToNat rest).map fun n => (n : Int)
  | rest => (digitsToNat rest).map fun n => (n : Int)

/-- The sorted view the handler paginates:
`sorted(set(executions.keys()) | set(websockets.keys()))`. -/
def sortedSessionIds (execKeys wsKeys : List String) : List String :=
  ((execKeys ++ wsKeys).dedup).mergeSort (fun a b => a ≤ b)

/-- Response of the sessions route: HTTP 400 with an error message, or the
JSON page payload. -/
inductive SessionsResult
  | badRequest (msg : String)
  | ok (items : List String) (page pageSize total : Int) (hasNext : Bool)
  deriving Repr, DecidableEq

/-- The page items of a response (empty for an error response). -/
def SessionsResult.items : SessionsResult → List String
  | .badRequest _ => []
  | .ok items _ _ _ _ => items

/-- Whether the response is the HTTP 400 error. -/
def SessionsResult.isBadRequest : SessionsResult → Bool
  | .badRequest _ => true
  | .ok _ _ _ _ _ => false

/-- Core of `ActionServer.sessions` after parameter parsing: validate the
pagination values, slice the sorted view, and reject an out-of-range page
(`start ≥ total`) unless the view is empty. -/
def sessionsPage (execKeys wsKeys : List String) (page pageSize : Int) :
    SessionsResult :=
  if page < 1 ∨ pageSize < 1 ∨ pageSize > 1000 then
    .badRequest "invalid pagination params"
  else
    let ids := sortedSessionIds execKeys wsKeys
    let total := ids.length
    let start := ((page - 1) * pageSize).toNat
    if start ≥ total ∧ total ≠ 0 then .badRequest "page out of range"
    else
      .ok ((ids.drop start).take pageSize.toNat) page pageSize total
        (decide (start + pageSize.toNat < total))
/-- Embedding of `ActionServer.sessions`: parse `page` (default `"1"`) and
`page_size` (default `"50"`) with Python `int`, returning HTTP 400 on
`ValueError`, then paginate. -/
def sessionsHandler (execKeys wsKeys : List String)
    (pageQ pageSizeQ : Option String) : SessionsResult :=
  match pyParseInt (pageQ.getD "1"), pyParseInt (pageSizeQ.getD "50") with
  | some page, some pageSize => sessionsPage execKeys wsKeys page pageSize
  | _, _ => .badRequest "invalid pagination params"

/-- Number of pages of a view of `total` items at `pageSize` per page:
the ceiling of `total / pageSize`. -/
def ceilPages (total pageSize : Nat) : Nat := (total + pageSize - 1) / pageSize

/-- The HTTP-400 condition exactly as claim C8 states it: invalid pagination
values (non-integer, `page < 1`, `page_size < 1` or `> 1000`) or the
requested page out of range for the current view (`page > ceil(total /
page_size)`). -/
def c8ClaimedBadRequest (execKeys wsKeys : List String)
    (pageQ pageSizeQ : Option String) : Prop :=
  match pyParseInt (pageQ.getD "1"), pyParseInt (pageSizeQ.getD "50") with
  | some page, some pageSize =>
    page < 1 ∨ pageSize < 1 ∨ pageSize > 1000 ∨
      page > (ceilPages (sortedSessionIds execKeys wsKeys).length pageSize.toNat : Int)
  | _, _ => True

/-- The amended HTTP-400 condition: as claimed, except that the
out-of-range rejection only applies to a non-empty view — on an empty view
every structurally valid page succeeds with an empty item list. -/
def c8AmendedBadRequest (execKeys wsKeys : List String)
    (pageQ pageSizeQ : Option String) : Prop :=
  match pyParseInt (pageQ.getD "1"), pyParseInt (pageSizeQ.getD "50") with
  | some page, some pageSize =>
    page < 1 ∨ pageSize < 1 ∨ pageSize > 1000 ∨
      ((sortedSessionIds execKeys wsKeys).length ≠ 0 ∧
        page > (ceilPages (sortedSessionIds execKeys wsKeys).length pageSize.toNat : Int))
  | _, _ => True

/-! Theorems.  Each claim of the specification is settled below; helper
lemmas precede the claim theorems that use them. -/

/-- C1, counterexample: when `select` reports the master fd readable but the
master read fails with `EAGAIN`, `read_blocking` does not return a
`TerminalOutput` with `output = none` — it propagates the `OSError` — while
the adjacent helper `read_output` is the function that maps `EAGAIN` to
`None`. -/
theorem c1_counterexample :
    read_blocking ⟨false, true⟩ ReadResult.eagain =
      Except.error (PyError.osError "EAGAIN") ∧
    read_output ReadResult.eagain = Except.ok none :=
  ⟨rfl, rfl⟩

/-- C1, amended: for every call in which `select` reports the master fd
readable and the master read fails with `EAGAIN`, `read_blocking` raises
(propagates the `OSError`) regardless of the sentinel state; the
`EAGAIN`-to-`None` behavior lives in `read_output`, which `read_blocking`
does not use. -/
theorem c1_read_blocking_propagates_eagain :
    ∀ sentinelReady : Bool,
      read_blocking ⟨sentinelReady, true⟩ ReadResult.eagain =
        Except.error (PyError.osError "EAGAIN") ∧
      read_output ReadResult.eagain = Except.ok none :=
  fun _ => ⟨rfl, rfl⟩

/-- C2, counterexample: with no stop mark installed, no recent ctrl-C, and
raw master bytes `"a\r\nb"`, `Terminal.read` returns `"a\nb"` — the CRLF
was normalized — whereas the claim (`c2ClaimedOutput`) requires the raw
bytes unchanged. -/
theorem c2_counterexample :
    terminalRead ⟨⟨false, true⟩, ReadResult.ok [97, 13, 10, 98], [], false⟩ none =
      Except.ok { is_done := false, output := some [97, 10, 98], error := none } ∧
    c2ClaimedOutput false [97, 13, 10, 98] = [97, 13, 10, 98] ∧
    ([97, 10, 98] : List Nat) ≠ [97, 13, 10, 98] := by
  refine ⟨rfl, rfl, by decide⟩

/-- C2, amended: in a read cycle with no stop mark installed and a drain
loop that does not raise, the output bytes are not raw: they are the joined
raw chunks decoded (errors ignored), CRLF/CR-normalized to LF,
ANSI-escape-stripped, leading-prompt-stripped, ctrl-C-echo-fixed, and
re-encoded (`sanitizeNoStop`); when a non-EAGAIN `OSError` from a drain
read escapes to the branch's `except Exception: pass`, the raw first read
is delivered unchanged; errors from `read_blocking` propagate and an absent
output stays absent. -/
theorem c2_no_stop_mark_output_is_sanitized :
    ∀ (ready : SelectReady) (mr : ReadResult) (evs : List DrainEvent) (cc : Bool),
      terminalRead ⟨ready, mr, evs, cc⟩ none =
        (read_blocking ready mr).map fun r =>
          match r.output with
          | some out =>
            match drainLoop 4 evs with
            | (_, some _) => r
            | (extra, none) =>
              { r with output := some (sanitizeNoStop cc ((out :: extra).flatten)) }
          | none => r := by
  intro ready mr evs cc
  unfold terminalRead
  cases hr : read_blocking ready mr with
  | error e => rfl
  | ok r =>
    cases r with
    | mk d o e s =>
      cases o with
      | none => rfl
      | some out =>
        cases hd : drainLoop 4 evs with
        | mk extra err =>
          cases err with
          | none => simp only [hd]; rfl
          | some m => simp only [hd]; rfl

/-- C3, counterexample: with stop mark `"a\nb"` installed and raw master
bytes `"a\r\nb"`, `Terminal.read` reports `stop_mark_found = false` even
though the sanitized output (`sanitizeStopText`) does contain the stop
mark — the match is performed on the raw text before sanitization, contrary
to the claim. -/
theorem c3_counterexample :
    terminalRead ⟨⟨false, true⟩, ReadResult.ok [97, 13, 10, 98], [], false⟩
        (some ['a', '\n', 'b']) =
      Except.ok { is_done := false, output := some [97, 10, 98], error := none,
                  stop_mark_found := false } ∧
    isSubstring ['a', '\n', 'b']
      (sanitizeStopText (utf8DecodeIgnore [97, 13, 10, 98])) = true :=
  ⟨rfl, rfl⟩

/-- C3, amended: in a read cycle with a stop mark installed,
`stop_mark_found` is set exactly when the stop mark occurs as a substring of
the raw decoded text (before any sanitization), and the delivered output is
then sanitized (`sanitizeStopText`: ANSI strip, CRLF→LF, prompt removal). -/
theorem c3_stop_mark_matched_on_raw_text :
    ∀ (ready : SelectReady) (mr : ReadResult) (evs : List DrainEvent) (cc : Bool)
      (sm : List Char),
      terminalRead ⟨ready, mr, evs, cc⟩ (some sm) =
        (read_blocking ready mr).map fun r =>
          match r.output with
          | some out =>
            { r with
              stop_mark_found := isSubstring sm (utf8DecodeIgnore out),
              output := some (utf8Encode (sanitizeStopText (utf8DecodeIgnore out))) }
          | none => r := by
  intro ready mr extra cc sm
  unfold terminalRead
  cases hr : read_blocking ready mr with
  | error e => rfl
  | ok r =>
    cases r with
    | mk d o e s =>
      cases o with
      | none => rfl
      | some out => rfl

/-- C9: closing a `Terminal` twice is indistinguishable from closing it
once; after either one or two `close` calls both parent fds are closed and
the shell's process group no longer exists — for every initial state and
every outcome of the SIGTERM grace window, and `close` is total (it never
raises: every `OSError`, `ProcessLookupError` and `ChildProcessError` path
in the source is caught). -/
theorem c9_close_idempotent_and_kills_group :
    ∀ (k1 k2 : Bool) (s : TermState),
      closeTerminal k2 (closeTerminal k1 s) = closeTerminal k1 s ∧
      (closeTerminal k1 s).status = ShellStatus.gone ∧
      (closeTerminal k1 s).masterOpen = false ∧
      (closeTerminal k1 s).sentinelOpen = false := by
  intro k1 k2 s
  cases s with
  | mk m sen st => cases st <;> cases k1 <;> cases k2 <;> exact ⟨rfl, rfl, rfl, rfl⟩

/-- C10: every invocation of `read_pty_into_queue` raises `NameError` in its
`finally` clause — the completion sentinel is pushed through the undefined
name `q` (not the `output_queue` parameter), and `"q"` resolves in neither
the function's scope nor the module's — so the `None` completion sentinel is
never enqueued. -/
theorem c10_finally_raises_nameerror :
    ∀ items : List TerminalOutput,
      (read_pty_into_queue items).outcome = Except.error (PyError.nameError "q") ∧
      Option.none ∉ (read_pty_into_queue items).posted := by
  intro items
  have hq : ¬("q" ∈ readPtyIntoQueueLocalNames ∨ "q" ∈ ptyReaderModuleNames) := by
    decide
  constructor
  · simp [read_pty_into_queue, hq]
  · simp [read_pty_into_queue, hq]

/-- Publishing a message list to a subscriber that is not closed leaves it
open and appends every message to its queue, in order. -/
theorem publishList_not_closed_items {α : Type} (ms : List α) :
    ∀ q : AsyncQueue α,
      TopicSubscriber.publishList ⟨q, false⟩ ms =
        ⟨⟨q.maxsize, q.items ++ ms⟩, false⟩ := by
  induction ms with
  | nil => intro q; simp [TopicSubscriber.publishList]
  | cons m ms ih =>
    intro q
    show TopicSubscriber.publishList (TopicSubscriber.publish ⟨q, false⟩ m) ms = _
    have hstep : TopicSubscriber.publish ⟨q, false⟩ m =
        (⟨⟨q.maxsize, q.items ++ [m]⟩, false⟩ : TopicSubscriber α) := rfl
    rw [hstep, ih ⟨q.maxsize, q.items ++ [m]⟩]
    simp

/-- C5, counterexample: the subscriber built by
`TopicManager.add_subscription` (`TopicSubscriber.new`, whose
`asyncio.Queue()` is created with the default `maxsize = 0`) does not own a
bounded message queue: no bound `B` limits its queue length over all
publish sequences. -/
theorem c5_counterexample :
    ¬ TopicSubscriber.boundedQueue (TopicSubscriber.new : TopicSubscriber Nat) := by
  rintro ⟨B, h⟩
  have h2 := h (List.replicate (B + 1) 0)
  rw [show (TopicSubscriber.new : TopicSubscriber Nat) =
        ⟨⟨0, []⟩, false⟩ from rfl,
      publishList_not_closed_items] at h2
  simp at h2

/-- Unfolding `assocLookup` on a cons cell. -/
theorem assocLookup_cons {β : Type} (i : Nat) (x : Nat × β) (t : List (Nat × β)) :
    assocLookup i (x :: t) = if x.1 = i then some x.2 else assocLookup i t := by
  obtain ⟨k, v⟩ := x
  rfl

/-- Looking a subscriber up after the publish fanout: only its own previous
state (and whether its identity is in the snapshot) determines its new
state. -/
theorem assocLookup_map_publishTo {α : Type} (ids : List Nat) (m : α) (i : Nat) :
    ∀ l : List (Nat × TopicSubscriber α),
      assocLookup i (l.map (publishTo ids m)) =
        (assocLookup i l).map fun s => if i ∈ ids then s.publish m else s := by
  intro l
  induction l with
  | nil => rfl
  | cons p rest ih =>
    obtain ⟨k, v⟩ := p
    rw [List.map_cons, assocLookup_cons, assocLookup_cons]
    have h1 : (publishTo ids m (k, v)).1 = k := by
      unfold publishTo
      by_cases hmem : (k, v).1 ∈ ids
      · rw [if_pos hmem]
      · rw [if_neg hmem]
    rw [h1]
    by_cases hk : k = i
    · subst hk
      rw [if_pos rfl, if_pos rfl, Option.map_some']
      unfold publishTo
      by_cases hmem : ((k, v) : Nat × TopicSubscriber α).1 ∈ ids
      · rw [if_pos hmem, if_pos hmem]
      · rw [if_neg hmem, if_neg hmem]
    · rw [if_neg hk, if_neg hk]
      exact ih

/-- C5, amended: every subscriber returned by `add_subscription` owns an
unbounded FIFO queue (`asyncio.Queue()` with `maxsize = 0`) and starts
open; on `TopicManager.publish`, each subscriber of the topic is updated
using only its own prior state — a message to a closed subscriber is
dropped for that subscriber only, an open subscriber gets the message
appended to its queue — and every other subscriber is unaffected. -/
theorem c5_publish_isolated_per_subscriber :
    ∀ {α : Type} (tm : TopicManagerState α) (topic : String) (m : α) (i : Nat)
      (s : TopicSubscriber α),
      assocLookup i (tm.publish topic m).subs =
        (assocLookup i tm.subs).map (fun s' =>
          if i ∈ tm.subsOf topic then s'.publish m else s') ∧
      TopicSubscriber.publish s m =
        (if s.closed then s else { s with queue := s.queue.put m }) ∧
      AsyncQueue.put s.queue m = { s.queue with items := s.queue.items ++ [m] } ∧
      (TopicSubscriber.new : TopicSubscriber α).queue.maxsize = 0 ∧
      (TopicSubscriber.new : TopicSubscriber α).closed = false := by
  intro α tm topic m i s
  exact ⟨assocLookup_map_publishTo _ _ _ _, rfl, rfl, rfl, rfl⟩

mutual

/-- After `_coerce_bytes_to_text`, no bytes value remains in a payload. -/
theorem bytesFree_coerce_aux : ∀ v : JValue, bytesFree (coerceBytesToText v) = true
  | .jbytes _ => rfl
  | .jstr _ => rfl
  | .jnum _ => rfl
  | .jbool _ => rfl
  | .jnull => rfl
  | .jarr xs => bytesFreeList_coerce_aux xs
  | .jobj fs => bytesFreeFields_coerce_aux fs

/-- After `_coerce_bytes_to_text`, no bytes value remains in a list value. -/
theorem bytesFreeList_coerce_aux :
    ∀ xs : List JValue, bytesFreeList (coerceBytesToTextList xs) = true
  | [] => rfl
  | x :: xs => by
    show (bytesFree (coerceBytesToText x) && bytesFreeList (coerceBytesToTextList xs)) = true
    rw [bytesFree_coerce_aux x, bytesFreeList_coerce_aux xs]
    rfl

/-- After `_coerce_bytes_to_text`, no bytes value remains in a dict value. -/
theorem bytesFreeFields_coerce_aux :
    ∀ fs : List (String × JValue), bytesFreeFields (coerceBytesToTextFields fs) = true
  | [] => rfl
  | (_, v) :: fs => by
    show (bytesFree (coerceBytesToText v) && bytesFreeFields (coerceBytesToTextFields fs)) = true
    rw [bytesFree_coerce_aux v, bytesFreeFields_coerce_aux fs]
    rfl

end

/-- C6, counterexample: the observer's `_coerce_bytes_to_text` decodes the
invalid byte string `0xFF` to the empty string — the invalid sequence is
dropped (`errors="ignore"`), not replaced: the replacement strategy the
claim requires would give U+FFFD. -/
theorem c6_counterexample :
    coerceBytesToText (JValue.jbytes [0xFF]) = JValue.jstr [] ∧
    utf8DecodeReplace [0xFF] = [Char.ofNat 0xFFFD] ∧
    ([] : List Char) ≠ [Char.ofNat 0xFFFD] := by
  refine ⟨rfl, rfl, by simp⟩

/-- C6, amended: every byte-string value in the fanned-out payload is
UTF-8-decoded with the ignore strategy (invalid sequences dropped, not
replaced), and consequently the coerced payload contains no byte values at
all, so it always JSON-encodes. -/
theorem c6_coerced_payload_always_encodes :
    ∀ v : JValue,
      bytesFree (coerceBytesToText v) = true ∧
      (∀ b : List Nat, coerceBytesToText (JValue.jbytes b) =
        JValue.jstr (utf8DecodeIgnore b)) :=
  fun v => ⟨bytesFree_coerce_aux v, fun _ => rfl⟩

/-- Deleting a session removes every reverse `execution → session` entry
that pointed at it. -/
theorem delete_session_unmaps (st : ServerState) (sid eid : String)
    (h : st.execSession eid = some sid) :
    (st.step (SOp.deleteSession sid)).execSession eid = none := by
  show (if st.execSession eid = some sid then none else st.execSession eid) = none
  rw [if_pos h]

/-- An execution id absent from the reverse table stays absent under any
table operation that does not register that id. -/
theorem step_preserves_unmapped (eid : String) (st : ServerState) (op : SOp)
    (h : st.execSession eid = none) (hop : op.registersExec eid = false) :
    (st.step op).execSession eid = none := by
  cases op with
  | execute sid eid' =>
    have hne : eid ≠ eid' := by
      simp [SOp.registersExec] at hop
      exact fun hh => hop hh.symm
    show (if eid = eid' then some sid else st.execSession eid) = none
    rw [if_neg hne, h]
  | deleteSession sid =>
    show (if st.execSession eid = some sid then none else st.execSession eid) = none
    rw [h]
    simp
  | addTopic sid tid => exact h
  | removeTopic sid tid => exact h
  | wsConnect sid w => exact h
  | wsClose sid w => exact h

/-- Absence from the reverse table is preserved by any operation sequence
that never registers the id. -/
theorem run_preserves_unmapped (eid : String) :
    ∀ (ops : List SOp) (st : ServerState),
      st.execSession eid = none →
      (ops.all fun op => !op.registersExec eid) = true →
      (st.run ops).execSession eid = none := by
  intro ops
  induction ops with
  | nil => intro st h _; exact h
  | cons op ops ih =>
    intro st h hall
    rw [List.all_cons, Bool.and_eq_true] at hall
    have hop : op.registersExec eid = false := by
      cases hopb : op.registersExec eid
      · rfl
      · rw [hopb] at hall; exact absurd hall.1 (by decide)
    exact ih (st.step op) (step_preserves_unmapped eid st op h hop) hall.2

/-- C4: after `DELETE /sessions/{s}`, an observer emission for any execution
id that was mapped to `s` at deletion time is dropped — delivered to no
WebSocket and published to no topic — no matter which further table
operations ran in between, as long as none of them registered that
execution id anew (the service assigns fresh execution ids, so an id never
recurs), and regardless of which WebSocket sends would have succeeded. -/
theorem c4_delete_session_stops_fanout :
    ∀ (st : ServerState) (sid eid : String) (ops : List SOp) (sendOk : Nat → Bool),
      st.execSession eid = some sid →
      (ops.all fun op => !op.registersExec eid) = true →
      (receiveExecutionResponse ((st.step (SOp.deleteSession sid)).run ops) eid
          sendOk).1 = ⟨[], []⟩ := by
  intro st sid eid ops sendOk h hall
  have h1 : ((st.step (SOp.deleteSession sid)).run ops).execSession eid = none :=
    run_preserves_unmapped eid ops _ (delete_session_unmaps st sid eid h) hall
  simp [receiveExecutionResponse, h1]

/-- Witness for C4: a concrete history — execution `e1` in session `s1`,
one WebSocket, one topic — followed by `DELETE /sessions/s1` and a fresh
execution in another session; the observer emission for `e1` reaches no
WebSocket and no topic. -/
theorem c4_witness :
    (ServerState.empty.run [SOp.execute "s1" "e1", SOp.wsConnect "s1" 5,
        SOp.addTopic "s1" "t1"]).execSession "e1" = some "s1" ∧
    (([SOp.execute "s2" "e2"] : List SOp).all fun op => !op.registersExec "e1") = true ∧
    (receiveExecutionResponse
        (((ServerState.empty.run [SOp.execute "s1" "e1", SOp.wsConnect "s1" 5,
              SOp.addTopic "s1" "t1"]).step (SOp.deleteSession "s1")).run
          [SOp.execute "s2" "e2"]) "e1" (fun _ => true)).1 = ⟨[], []⟩ :=
  ⟨rfl, by decide,
    c4_delete_session_stops_fanout
      (ServerState.empty.run [SOp.execute "s1" "e1", SOp.wsConnect "s1" 5,
        SOp.addTopic "s1" "t1"])
      "s1" "e1" [SOp.execute "s2" "e2"] (fun _ => true) rfl (by decide)⟩

/-- Concatenating the page slices `[i*ps, i*ps+ps)` for `i < n` recovers the
whole list when `n` pages cover it. -/
theorem join_slices {α : Type} (ps : Nat) (_hps : 0 < ps) :
    ∀ (n : Nat) (l : List α), l.length ≤ n * ps →
      ((List.range n).map fun i => (l.drop (i * ps)).take ps).flatten = l := by
  intro n
  induction n with
  | zero =>
    intro l h
    have hl : l = [] := by
      cases l with
      | nil => rfl
      | cons a t => simp at h
    subst hl
    rfl
  | succ n ih =>
    intro l h
    rw [List.range_succ_eq_map, List.map_cons, List.map_map, List.flatten_cons]
    have hhead : (l.drop (0 * ps)).take ps = l.take ps := by
      rw [Nat.zero_mul, List.drop_zero]
    have htail : ((fun i => (l.drop (i * ps)).take ps) ∘ Nat.succ) =
        fun i => ((l.drop ps).drop (i * ps)).take ps := by
      funext i
      show (l.drop (Nat.succ i * ps)).take ps = _
      rw [List.drop_drop, Nat.succ_mul, Nat.add_comm (i * ps) ps]
    rw [hhead, htail, ih (l.drop ps) (by rw [List.length_drop, Nat.succ_mul] at *; omega)]
    exact List.take_append_drop ps l

/-- A page index below the page count starts strictly inside the view. -/
theorem mul_lt_of_lt_ceilPages (total ps i : Nat) (hps : 0 < ps)
    (hi : i < ceilPages total ps) : i * ps < total := by
  unfold ceilPages at hi
  have h2 : (i + 1) * ps ≤ total + ps - 1 := (Nat.le_div_iff_mul_le hps).mp hi
  rw [Nat.succ_mul] at h2
  omega

/-- The page count covers the whole view. -/
theorem le_ceilPages_mul (total ps : Nat) (hps : 0 < ps) :
    total ≤ ceilPages total ps * ps := by
  unfold ceilPages
  have h := Nat.div_add_mod (total + ps - 1) ps
  have hmod := Nat.mod_lt (total + ps - 1) hps
  rw [Nat.mul_comm]
  generalize hg : ps * ((total + ps - 1) / ps) = m at h ⊢
  omega

/-- For a valid page/page-size pair and a page that starts inside the view,
`sessionsPage` answers with exactly the slice `[start, start + page_size)`
of the sorted view. -/
theorem sessionsPage_items_of_lt (execKeys wsKeys : List String) (ps : Int)
    (hps1 : 1 ≤ ps) (hps2 : ps ≤ 1000) (i : Nat)
    (hlt : i * ps.toNat < (sortedSessionIds execKeys wsKeys).length) :
    sessionsPage execKeys wsKeys ((i : Int) + 1) ps =
      SessionsResult.ok
        (((sortedSessionIds execKeys wsKeys).drop (i * ps.toNat)).take ps.toNat)
        ((i : Int) + 1) ps (sortedSessionIds execKeys wsKeys).length
        (decide (i * ps.toNat + ps.toNat < (sortedSessionIds execKeys wsKeys).length)) := by
  have hcond : ¬((i : Int) + 1 < 1 ∨ ps < 1 ∨ ps > 1000) := by
    push_neg
    refine ⟨by omega, by omega, by omega⟩
  have hstart : (((i : Int) + 1 - 1) * ps).toNat = i * ps.toNat := by
    have h1 : ((i : Int) + 1 - 1) = (i : Int) := by ring
    rw [h1]
    conv_lhs => rw [← Int.toNat_of_nonneg (show (0 : Int) ≤ ps by omega)]
    rw [← Int.natCast_mul, Int.toNat_natCast]
  have hoor : ¬(i * ps.toNat ≥ (sortedSessionIds execKeys wsKeys).length ∧
      (sortedSessionIds execKeys wsKeys).length ≠ 0) := by
    intro hcontra
    omega
  simp only [sessionsPage]
  rw [if_neg hcond, hstart, if_neg hoor]

/-- C7: for any fixed view and any page size in `[1, 1000]`, concatenating
the items of pages `1 .. ceil(total / page_size)` of `GET /sessions` yields
the sorted session-id view exactly; that view is strictly ascending and is
a permutation of the distinct known session ids, so every session id
appears exactly once, in ascending order. -/
theorem c7_sessions_pagination_total_stable :
    ∀ (execKeys wsKeys : List String) (ps : Int),
      1 ≤ ps → ps ≤ 1000 →
      (((List.range
            (ceilPages (sortedSessionIds execKeys wsKeys).length ps.toNat)).map
          fun i : Nat => (sessionsPage execKeys wsKeys ((i : Int) + 1) ps).items).flatten =
        sortedSessionIds execKeys wsKeys) ∧
      List.Pairwise (· < ·) (sortedSessionIds execKeys wsKeys) ∧
      (sortedSessionIds execKeys wsKeys).Perm (execKeys ++ wsKeys).dedup := by
  intro ek wk ps hps1 hps2
  have hps' : 0 < ps.toNat := by omega
  refine ⟨?_, ?_, ?_⟩
  · have hcong : (List.range
          (ceilPages (sortedSessionIds ek wk).length ps.toNat)).map
          (fun i : Nat => (sessionsPage ek wk ((i : Int) + 1) ps).items) =
        (List.range
          (ceilPages (sortedSessionIds ek wk).length ps.toNat)).map
          (fun i : Nat => ((sortedSessionIds ek wk).drop (i * ps.toNat)).take ps.toNat) := by
      apply List.map_congr_left
      intro i hi
      rw [List.mem_range] at hi
      rw [sessionsPage_items_of_lt ek wk ps hps1 hps2 i
        (mul_lt_of_lt_ceilPages _ _ _ hps' hi)]
      rfl
    rw [hcong]
    exact join_slices ps.toNat hps' _ _ (le_ceilPages_mul _ _ hps')
  · have hsorted : List.Pairwise (fun a b : String => a ≤ b) (sortedSessionIds ek wk) :=
      List.sorted_mergeSort' _
    have hnodup : List.Pairwise (fun a b : String => a ≠ b) (sortedSessionIds ek wk) :=
      (List.mergeSort_perm _ _).symm.nodup (List.nodup_dedup _)
    exact (hsorted.and hnodup).imp fun h => lt_of_le_of_ne h.1 h.2
  · exact List.mergeSort_perm _ _

/-- Witness for C7 at the concrete view `{"a", "b", "c"}` (from execution
sessions `["b", "a"]` and WebSocket sessions `["a", "c"]`) and page size 2. -/
theorem c7_witness :
    (((List.range
          (ceilPages (sortedSessionIds ["b", "a"] ["a", "c"]).length (2 : Int).toNat)).map
        fun i : Nat => (sessionsPage ["b", "a"] ["a", "c"] ((i : Int) + 1) 2).items).flatten =
      sortedSessionIds ["b", "a"] ["a", "c"]) ∧
    List.Pairwise (· < ·) (sortedSessionIds ["b", "a"] ["a", "c"]) ∧
    (sortedSessionIds ["b", "a"] ["a", "c"]).Perm (["b", "a"] ++ ["a", "c"]).dedup :=
  c7_sessions_pagination_total_stable ["b", "a"] ["a", "c"] 2 (by decide) (by decide)

/-- The slice start `(page-1)*page_size` falls at or beyond the view end
exactly when the page index exceeds the page count. -/
theorem ceilPages_le_iff (total ps k : Nat) (hps : 0 < ps) :
    ceilPages total ps ≤ k ↔ total ≤ k * ps := by
  unfold ceilPages
  rw [Nat.div_le_iff_le_mul_add_pred hps, Nat.mul_comm ps k]
  generalize k * ps = m
  omega

/-- Casting the slice start to natural numbers. -/
theorem toNat_start_eq (p ps : Int) (hp : 1 ≤ p) (hps : 0 ≤ ps) :
    ((p - 1) * ps).toNat = (p - 1).toNat * ps.toNat := by
  conv_lhs =>
    rw [← Int.toNat_of_nonneg (show (0 : Int) ≤ p - 1 by omega),
      ← Int.toNat_of_nonneg hps]
  rw [← Int.natCast_mul, Int.toNat_natCast]

/-- C8, counterexample: on the empty view, `GET /sessions?page=2` succeeds
with an empty item list (HTTP 200), although page 2 is out of range for the
empty view (`ceil(0 / 50) = 0` pages), where the claim requires HTTP 400. -/
theorem c8_counterexample :
    (sessionsHandler [] [] (some "2") none).isBadRequest = false ∧
    c8ClaimedBadRequest [] [] (some "2") none := by
  have h2 : pyParseInt "2" = some 2 := by decide
  have h50 : pyParseInt "50" = some 50 := by decide
  have hids : sortedSessionIds [] [] = [] := by simp [sortedSessionIds]
  constructor
  · show (sessionsHandler [] [] (some "2") none).isBadRequest = false
    simp only [sessionsHandler, Option.getD, h2, h50, sessionsPage, hids]
    norm_num [SessionsResult.isBadRequest, ceilPages]
  · show c8ClaimedBadRequest [] [] (some "2") none
    simp only [c8ClaimedBadRequest, Option.getD, h2, h50, hids]
    norm_num [ceilPages]

/-- C8, amended: `GET /sessions` defaults `page` to 1 and `page_size` to 50,
and responds HTTP 400 exactly when the pagination values are invalid
(non-integer, `page < 1`, `page_size < 1` or `> 1000`) or the view is
non-empty and the requested page exceeds `ceil(total / page_size)`; on an
empty view every structurally valid page succeeds (with an empty item
list). -/
theorem c8_sessions_http400_exactly :
    ∀ (ek wk : List String) (pageQ psQ : Option String),
      ((sessionsHandler ek wk pageQ psQ).isBadRequest = true ↔
        c8AmendedBadRequest ek wk pageQ psQ) ∧
      sessionsHandler ek wk none none = sessionsHandler ek wk (some "1") (some "50") := by
  intro ek wk pageQ psQ
  refine ⟨?_, rfl⟩
  unfold sessionsHandler c8AmendedBadRequest
  cases hp : pyParseInt (pageQ.getD "1") with
  | none =>
    cases hq : pyParseInt (psQ.getD "50") with
    | none => simp [SessionsResult.isBadRequest]
    | some ps => simp [SessionsResult.isBadRequest]
  | some p =>
    cases hq : pyParseInt (psQ.getD "50") with
    | none => simp [SessionsResult.isBadRequest]
    | some ps =>
      simp only [sessionsPage]
      by_cases hbad : p < 1 ∨ ps < 1 ∨ ps > 1000
      · rw [if_pos hbad]
        simp only [SessionsResult.isBadRequest, true_iff]
        rcases hbad with h | h | h
        · exact Or.inl h
        · exact Or.inr (Or.inl h)
        · exact Or.inr (Or.inr (Or.inl h))
      · rw [if_neg hbad]
        push_neg at hbad
        obtain ⟨hp1, hps1, hps2⟩ := hbad
        have hkey : (((p - 1) * ps).toNat ≥ (sortedSessionIds ek wk).length ∧
            (sortedSessionIds ek wk).length ≠ 0) ↔
            ((sortedSessionIds ek wk).length ≠ 0 ∧
              p > (ceilPages (sortedSessionIds ek wk).length ps.toNat : Int)) := by
          rw [toNat_start_eq p ps hp1 (by omega)]
          constructor
          · intro h
            obtain ⟨hge, hne⟩ := h
            have hle : ceilPages (sortedSessionIds ek wk).length ps.toNat ≤ (p - 1).toNat :=
              (ceilPages_le_iff _ _ _ (by omega)).mpr hge
            exact ⟨hne, by omega⟩
          · intro h
            obtain ⟨hne, hgt⟩ := h
            have hle : ceilPages (sortedSessionIds ek wk).length ps.toNat ≤ (p - 1).toNat := by
              omega
            exact ⟨(ceilPages_le_iff _ _ _ (by omega)).mp hle, hne⟩
        by_cases hoor : (((p - 1) * ps).toNat ≥ (sortedSessionIds ek wk).length ∧
            (sortedSessionIds ek wk).length ≠ 0)
        · rw [if_pos hoor]
          simp only [SessionsResult.isBadRequest, true_iff]
          exact Or.inr (Or.inr (Or.inr (hkey.mp hoor)))
        · rw [if_neg hoor]
          simp only [SessionsResult.isBadRequest, Bool.false_eq_true, false_iff]
          intro hcontra
          rcases hcontra with h | h | h | h
          · omega
          · omega
          · omega
          · exact hoor (hkey.mpr h)
